import Mathlib

/-!
Shallow embedding of the product-dashboard script (src/app.py).

The script builds a flat table of product records from the nested
PRODUCTS dictionary (load_data), filters and sorts it (filter_data),
runs a free-text search over the name/company columns (the mask at
lines 95-100), and shows summary statistics (np.mean of the price
column).  DataFrames are modelled as ordered lists of records; the
pandas operations used by the script (boolean-mask selection,
Series.between, sort_values, reset_index, str.contains, np.mean,
round) are modelled from their documented semantics at the call sites
appearing in the script.
-/

/-- Calendar date, the model of a pandas Timestamp produced by
pd.to_datetime for a date-only input (no time-of-day component is used
by the script). -/
structure Date where
  year : Nat
  month : Nat
  day : Nat
deriving DecidableEq, Repr

/-- Chronological comparison of dates: lexicographic on
(year, month, day).  This is how pandas orders date-only Timestamps. -/
def Date.le (a b : Date) : Bool :=
  decide (a.year < b.year) ||
    (decide (a.year = b.year) &&
      (decide (a.month < b.month) ||
        (decide (a.month = b.month) && decide (a.day ≤ b.day))))

/-- One flattened catalog row, as produced by load_data: the four
attributes of an item of PRODUCTS plus the enclosing category key,
with the last_updated string parsed to a date. -/
structure ProductRecord where
  name : String
  price : Nat
  company : String
  last_updated : Date
  category : String
deriving DecidableEq, Repr

/-- Raw attribute dictionary of one item of PRODUCTS, before
flattening: last_updated is still the unparsed string. -/
structure RawItem where
  name : String
  price : Nat
  company : String
  last_updated : String
deriving DecidableEq, Repr

/-- The nested PRODUCTS dictionary of src/app.py lines 9-23, with the
insertion order of the Python dict literals preserved (Python dicts
iterate in insertion order). -/
def PRODUCTS : List (String × List (String × RawItem)) :=
  [("Electronics",
     [("Laptop", ⟨"Laptop", 70000, "Dell", "2025-10-10"⟩),
      ("Smartphone", ⟨"Smartphone", 30000, "Samsung", "2025-09-15"⟩),
      ("Earbuds", ⟨"Earbuds", 2500, "Realme", "2025-08-20"⟩)]),
   ("Appliances",
     [("Refrigerator", ⟨"Refrigerator", 55000, "LG", "2025-09-25"⟩),
      ("Washing Machine", ⟨"Washing Machine", 45000, "Whirlpool", "2025-07-18"⟩)]),
   ("Accessories",
     [("Keyboard", ⟨"Keyboard", 1200, "Logitech", "2025-08-05"⟩),
      ("Mouse", ⟨"Mouse", 800, "HP", "2025-07-30"⟩)])]

/-- Split a character list at every dash, keeping empty pieces. -/
def split_dash : List Char → List (List Char)
  | [] => [[]]
  | c :: cs =>
    if c = '-' then [] :: split_dash cs
    else
      match split_dash cs with
      | [] => [[c]]
      | p :: ps => (c :: p) :: ps

/-- Read a non-empty run of decimal digits as a number. -/
def parse_nat_aux : List Char → Nat → Option Nat
  | [], acc => some acc
  | c :: cs, acc =>
    if c.isDigit then parse_nat_aux cs (acc * 10 + (c.toNat - 48)) else none

/-- Read a non-empty digit string. -/
def parse_nat : List Char → Option Nat
  | [] => none
  | cs => parse_nat_aux cs 0

/-- Model of pd.to_datetime at the call site of load_data, restricted
to the ISO YYYY-MM-DD strings appearing in PRODUCTS: split on the
dash, read three decimal numbers, require the month and day to be in
range.  A non-conforming string yields none (pd.to_datetime raises a
parse error there). -/
def parse_date (s : String) : Option Date :=
  match (split_dash s.toList).map parse_nat with
  | [some yn, some mn, some dn] =>
    if 1 ≤ mn && mn ≤ 12 && 1 ≤ dn && dn ≤ 31 then some ⟨yn, mn, dn⟩ else none
  | _ => none

/-- Body of the inner loop of load_data (lines 34-38): copy the item
attributes, attach the enclosing category, parse the date string. -/
def load_record (cat : String) (details : RawItem) : Except String ProductRecord :=
  match parse_date details.last_updated with
  | some d => .ok ⟨details.name, details.price, details.company, d, cat⟩
  | none => .error ("ParseError: " ++ details.last_updated)

/-- Embedding of load_data (lines 29-40): flatten the nested mapping
into one row per item, iterating categories in insertion order and
items in insertion order within each category, appending rows in that
order; no sorting is applied.  The st.cache_data memoization only
avoids recomputation and does not change the value. -/
def load_data (src : List (String × List (String × RawItem))) :
    Except String (List ProductRecord) := do
  let rows ← src.mapM (fun ci => ci.2.mapM (fun it => load_record ci.1 it.2))
  pure rows.flatten

/-- The flat sample catalog: the rows load_data produces from
PRODUCTS, in order. -/
def r_laptop : ProductRecord := ⟨"Laptop", 70000, "Dell", ⟨2025, 10, 10⟩, "Electronics"⟩

def r_smartphone : ProductRecord := ⟨"Smartphone", 30000, "Samsung", ⟨2025, 9, 15⟩, "Electronics"⟩

def r_earbuds : ProductRecord := ⟨"Earbuds", 2500, "Realme", ⟨2025, 8, 20⟩, "Electronics"⟩

def r_refrigerator : ProductRecord := ⟨"Refrigerator", 55000, "LG", ⟨2025, 9, 25⟩, "Appliances"⟩

def r_washing_machine : ProductRecord := ⟨"Washing Machine", 45000, "Whirlpool", ⟨2025, 7, 18⟩, "Appliances"⟩

def r_keyboard : ProductRecord := ⟨"Keyboard", 1200, "Logitech", ⟨2025, 8, 5⟩, "Accessories"⟩

def r_mouse : ProductRecord := ⟨"Mouse", 800, "HP", ⟨2025, 7, 30⟩, "Accessories"⟩

def sample_records : List ProductRecord :=
  [r_laptop, r_smartphone, r_earbuds, r_refrigerator, r_washing_machine, r_keyboard, r_mouse]

/-- Columns of the DataFrame built by load_data, in pandas column
order: the keys of the first row dict (name, price, company,
last_updated) followed by the added category key. -/
def df_columns : List String :=
  ["name", "price", "company", "last_updated", "category"]

/-- Row comparator that sort_values uses for a given column name:
some comparator when the name is a column of the DataFrame, none
otherwise (pandas raises KeyError for a missing column). -/
def key_le (key : String) : Option (ProductRecord → ProductRecord → Bool) :=
  if key = "name" then some (fun a b => decide (a.name ≤ b.name))
  else if key = "price" then some (fun a b => decide (a.price ≤ b.price))
  else if key = "company" then some (fun a b => decide (a.company ≤ b.company))
  else if key = "last_updated" then some (fun a b => Date.le a.last_updated b.last_updated)
  else if key = "category" then some (fun a b => decide (a.category ≤ b.category))
  else none

/-- Insertion step of the sorting model: place an element into an
already sorted list, before the first element it compares
less-or-equal to. -/
def ordered_insert (le : α → α → Bool) (a : α) : List α → List α
  | [] => [a]
  | b :: l => if le a b then a :: b :: l else b :: ordered_insert le a l

/-- Stable insertion sort used as the sorting model. -/
def insertion_sort (le : α → α → Bool) : List α → List α
  | [] => []
  | a :: l => ordered_insert le a (insertion_sort le l)

/-- Model of DataFrame.sort_values on a single column at line 48.
Pandas computes an ascending argsort of the key column and, for
ascending=False, argsorts the reversed column and reverses the
resulting indexer (pandas nargsort).  The default kind is quicksort
(numpy introsort), whose ordering of equal keys is not specified by
the pandas contract; this model uses a stable insertion sort in its
place, and no theorem below relies on the tie order the model picks. -/
def sort_values (rs : List ProductRecord) (le : ProductRecord → ProductRecord → Bool)
    (ascending : Bool) : List ProductRecord :=
  if ascending then insertion_sort le rs
  else (insertion_sort le rs.reverse).reverse

/-- Category test of line 45: Series.isin, membership of the category
value in the selected list. -/
def in_categories (cats : List String) (r : ProductRecord) : Bool :=
  cats.contains r.category

/-- Price test of line 46: Series.between with the default
inclusive=both, so both bounds are inclusive. -/
def price_between (pr : Nat × Nat) (r : ProductRecord) : Bool :=
  decide (pr.1 ≤ r.price) && decide (r.price ≤ pr.2)

/-- Embedding of filter_data (lines 42-48): keep the rows passing the
category and price tests, then sort by the requested column;
reset_index(drop=True) only renumbers the positional index and is the
identity on the ordered row list.  A sort_by that is not a column name
makes sort_values raise KeyError, modelled as the error case. -/
def filter_data (df : List ProductRecord) (categories : List String)
    (price_range : Nat × Nat) (sort_by : String) (ascending : Bool) :
    Except String (List ProductRecord) :=
  let filtered := df.filter (fun r => in_categories categories r && price_between price_range r)
  match key_le sort_by with
  | some le => .ok (sort_values filtered le ascending)
  | none => .error ("KeyError: " ++ sort_by)

/-- Single-character step of the search pattern: the regex
metacharacter dot matches any character except a newline; any other
pattern character matches case-insensitively (str.contains is called
with case=False, which compiles the pattern with IGNORECASE).  This
models Python re for the fragment actually exercised below: patterns
made of literal characters and the dot wildcard; other regex
metacharacters are not modelled, and every theorem below either
excludes them by hypothesis or uses only patterns in this fragment. -/
def char_matches (p c : Char) : Bool :=
  (p == '.' && !(c == '\n')) || (p.toLower == c.toLower)

/-- Anchored match: does the pattern match a prefix of the text. -/
def matchesAt : List Char → List Char → Bool
  | [], _ => true
  | _ :: _, [] => false
  | p :: ps, c :: cs => char_matches p c && matchesAt ps cs

/-- Unanchored match, the semantics of re.search used by
Series.str.contains: the pattern matches starting at some position of
the text. -/
def re_search (p : List Char) : List Char → Bool
  | [] => matchesAt p []
  | c :: cs => matchesAt p (c :: cs) || re_search p cs

/-- Model of Series.str.contains(query, case=False, na=False) applied
to one cell (lines 97-98): regex search of the query in the cell, with
IGNORECASE.  The na=False flag concerns missing cells only and no cell
of this catalog is missing. -/
def str_contains_ci (pat s : String) : Bool :=
  re_search pat.toList s.toList

/-- The boolean mask of lines 96-99: a row is selected when the query
is found in its name or in its company. -/
def search_mask (query : String) (r : ProductRecord) : Bool :=
  str_contains_ci query r.name || str_contains_ci query r.company

/-- The search of line 100: df[mask], the rows whose mask entry is
true, in their original order. -/
def search (df : List ProductRecord) (query : String) : List ProductRecord :=
  df.filter (search_mask query)

/-- Embedding of the display pipeline of lines 84-102: the text input
is stripped of surrounding whitespace (line 84); filter_data is
applied first (line 92); then, if the stripped query is non-empty
(Python truthiness of a string at line 95), the displayed frame is the
search over the full unfiltered catalog, otherwise it is the filtered
frame.  The Search button at line 85 is read but never consulted. -/
def page_result (df : List ProductRecord) (cats : List String) (price_sel : Nat × Nat)
    (sort_by : String) (ascending : Bool) (raw_query : String) :
    Except String (List ProductRecord) :=
  let query := raw_query.trim
  match filter_data df cats price_sel sort_by ascending with
  | .error e => .error e
  | .ok filtered_df => .ok (if query = "" then filtered_df else search df query)

/-- Round-half-to-even of a rational to an integer, the rounding used
by numpy round. -/
def rne (q : ℚ) : ℤ :=
  if q - ⌊q⌋ < 1 / 2 then ⌊q⌋
  else if 1 / 2 < q - ⌊q⌋ then ⌊q⌋ + 1
  else if ⌊q⌋ % 2 = 0 then ⌊q⌋ else ⌊q⌋ + 1

/-- Rounding to 2 decimal places, the model of numpy round(2). -/
def round2 (q : ℚ) : ℚ :=
  (rne (q * 100) : ℚ) / 100

/-- Arithmetic mean of the price column, the model of
np.mean(df[price]) in exact rational arithmetic.  At the inputs
evaluated below the float64 computation of numpy yields the same value
after rounding to 2 decimal places. -/
def average_price (rs : List ProductRecord) : ℚ :=
  (rs.map (fun r => (r.price : ℚ))).sum / rs.length

/-- The average displayed by the caption at line 127:
np.mean(df[price]).round(2). -/
def average_price_display (rs : List ProductRecord) : ℚ :=
  round2 (average_price rs)

/-- The call of line 92 viewed with its frame: the pair of the value
bound to df after the call and the result.  Each pandas operation
filter_data performs — boolean-mask selection, sort_values and
reset_index with their default inplace=False — returns a new object
and leaves its receiver unchanged, so the post-call value of df is its
pre-call value. -/
def filter_data_call (df : List ProductRecord) (categories : List String)
    (price_range : Nat × Nat) (sort_by : String) (ascending : Bool) :
    List ProductRecord × Except String (List ProductRecord) :=
  (df, filter_data df categories price_range sort_by ascending)

/-- Python re metacharacters: a query avoiding all of them is matched
purely literally by re.search. -/
def re_metachars : List Char :=
  ['.', '^', '$', '*', '+', '?', '\x7b', '\x7d', '[', ']', '\\', '|', '(', ')']

/-- Modelled from the spec: case-insensitive substring containment
(the spec describes search as a case-insensitive substring match
against name or company).  Both strings are lowercased and the first
is looked up as a contiguous run of the second. -/
def list_contains_sub : List Char → List Char → Bool
  | p, [] => p.isEmpty
  | p, c :: cs => p.isPrefixOf (c :: cs) || list_contains_sub p cs

/-- Modelled from the spec: substring test after lowercasing both
sides. -/
def substr_ci (pat s : String) : Bool :=
  list_contains_sub (pat.toList.map Char.toLower) (s.toList.map Char.toLower)

/-- Modelled from the spec: the search the spec describes, selecting
the records whose name or company contains the query as a
case-insensitive substring, in original order. -/
def search_substring_spec (rs : List ProductRecord) (q : String) : List ProductRecord :=
  rs.filter (fun r => substr_ci q r.name || substr_ci q r.company)

/-! ### Helper lemmas -/

lemma ordered_insert_perm (le : α → α → Bool) (a : α) (l : List α) :
    (ordered_insert le a l).Perm (a :: l) := by
  induction l with
  | nil => exact List.Perm.refl _
  | cons b t ih =>
    unfold ordered_insert
    by_cases h : le a b
    · simp [h]
    · simp only [h, if_neg, Bool.false_eq_true, not_false_eq_true, ite_false]
      exact (List.Perm.cons b ih).trans (List.Perm.swap a b t)

lemma insertion_sort_perm (le : α → α → Bool) (l : List α) :
    (insertion_sort le l).Perm l := by
  induction l with
  | nil => exact List.Perm.refl _
  | cons a t ih =>
    exact (ordered_insert_perm le a (insertion_sort le t)).trans (ih.cons a)

lemma sort_values_perm (rs : List ProductRecord) (le : ProductRecord → ProductRecord → Bool)
    (asc : Bool) : (sort_values rs le asc).Perm rs := by
  unfold sort_values
  by_cases h : asc
  · simpa [h] using insertion_sort_perm le rs
  · simp only [h, Bool.false_eq_true, not_false_eq_true, ite_false]
    exact (List.reverse_perm _).trans
      ((insertion_sort_perm le rs.reverse).trans (List.reverse_perm rs))

lemma filter_data_ok_perm (df : List ProductRecord) (cats : List String) (pr : Nat × Nat)
    (key : String) (asc : Bool) (out : List ProductRecord)
    (hout : filter_data df cats pr key asc = .ok out) :
    out.Perm (df.filter (fun r => in_categories cats r && price_between pr r)) := by
  unfold filter_data at hout
  cases hkl : key_le key with
  | none => rw [hkl] at hout; simp at hout
  | some le =>
    rw [hkl] at hout
    simp only [Except.ok.injEq] at hout
    rw [← hout]
    exact sort_values_perm _ _ _

lemma in_categories_eq (cats : List String) (r : ProductRecord) :
    in_categories cats r = decide (r.category ∈ cats) := by
  by_cases h : r.category ∈ cats <;>
    simp [in_categories, List.contains, List.elem_iff, h]

/-- C5: load_data flattens the nested category-to-item mapping into
one record per item, combining the item attributes with the enclosing
category name, in insertion order of the source structure (categories
first, then items within each category), with no sorting: on the
PRODUCTS catalog it produces exactly these 7 records in this order. -/
theorem load_data_sample_flattening :
    load_data PRODUCTS = .ok sample_records ∧ sample_records.length = 7 :=
  ⟨rfl, rfl⟩

/-- C1: filter_data keeps exactly the records whose category is in
the selected list and whose price lies inclusively between the two
bounds — the output is a permutation (reordering only by the sort) of
the matching sublist — and an empty category selection yields an empty
result. -/
theorem filter_data_exact (df : List ProductRecord) (cats : List String) (mn mx : Nat)
    (key : String) (asc : Bool) (out : List ProductRecord) (hb : mn ≤ mx)
    (hout : filter_data df cats (mn, mx) key asc = .ok out) :
    out.Perm (df.filter
      (fun r => decide (r.category ∈ cats) && (decide (mn ≤ r.price) && decide (r.price ≤ mx)))) ∧
      (cats = [] → out = []) := by
  have hperm := filter_data_ok_perm df cats (mn, mx) key asc out hout
  have hcong : df.filter (fun r => in_categories cats r && price_between (mn, mx) r) =
      df.filter
        (fun r => decide (r.category ∈ cats) && (decide (mn ≤ r.price) && decide (r.price ≤ mx))) := by
    apply List.filter_congr
    intro x _
    rw [in_categories_eq]
    rfl
  constructor
  · exact hcong ▸ hperm
  · intro hc
    subst hc
    apply List.Perm.eq_nil
    apply hperm.trans
    have hnone : df.filter (fun r => in_categories [] r && price_between (mn, mx) r) = [] := by
      have : ∀ r : ProductRecord, (in_categories [] r && price_between (mn, mx) r) = false := by
        intro r; rfl
      simp [List.filter_eq_nil_iff, this]
    rw [hnone]

/-- Witness for C1 at the sample catalog with the Electronics
category, the price range 0 to 100000 and the ascending price sort. -/
theorem filter_data_exact_witness :
    ([r_earbuds, r_smartphone, r_laptop].Perm
      (sample_records.filter
        (fun r => decide (r.category ∈ ["Electronics"]) &&
          (decide (0 ≤ r.price) && decide (r.price ≤ 100000))))) ∧
      (["Electronics"] = ([] : List String) → [r_earbuds, r_smartphone, r_laptop] = []) :=
  filter_data_exact sample_records ["Electronics"] 0 100000 "price" true
    [r_earbuds, r_smartphone, r_laptop] (by decide) rfl

/-- C3: whenever the stripped search query is non-empty, the displayed
frame is the search applied to the full unfiltered catalog and the
category/price filtering is bypassed entirely; only when the stripped
query is empty is the filtered frame displayed. -/
theorem page_result_search_overrides (df : List ProductRecord) (cats : List String)
    (pr : Nat × Nat) (key : String) (asc : Bool) (raw : String) (out : List ProductRecord)
    (hf : filter_data df cats pr key asc = .ok out) :
    page_result df cats pr key asc raw =
      .ok (if raw.trim = "" then out else search df raw.trim) := by
  unfold page_result
  rw [hf]

/-- Witness for C3: with the raw query " hp " on the sample catalog,
the displayed frame is the search of the full catalog for the stripped
query, not the filtered frame. -/
theorem page_result_search_overrides_witness :
    page_result sample_records ["Electronics"] (0, 100000) "price" true " hp " =
      .ok (if (" hp ").trim = "" then [r_earbuds, r_smartphone, r_laptop]
        else search sample_records (" hp ").trim) :=
  page_result_search_overrides sample_records ["Electronics"] (0, 100000) "price" true " hp "
    [r_earbuds, r_smartphone, r_laptop] rfl

/-- C7: searching with the empty query returns all input records,
unmodified and in their original order, since the empty pattern is
found in every string. -/
theorem search_empty_query_returns_all (rs : List ProductRecord) : search rs "" = rs := by
  have hre : ∀ s : List Char, re_search [] s = true := by
    intro s
    induction s with
    | nil => rfl
    | cons c u ih => simp [re_search, matchesAt]
  have hmask : ∀ r : ProductRecord, search_mask "" r = true := by
    intro r
    have h1 : str_contains_ci "" r.name = true := hre r.name.toList
    simp [search_mask, h1]
  exact List.filter_eq_self.mpr (fun a _ => hmask a)

/-- C8 counterexample: the sort key company lies outside the set
price, last_updated, name, yet filter_data does not fail on it — it
sorts by the company column — so rejection at that boundary does not
happen. -/
theorem filter_data_sortkey_counterexample :
    "company" ∉ (["price", "last_updated", "name"] : List String) ∧
      (filter_data sample_records ["Electronics"] (0, 100000) "company" true).isOk = true := by
  exact ⟨by decide, rfl⟩

/-- C8 amended: filter_data fails (the KeyError raised by sort_values,
the InvalidArgument condition) exactly when the sort key is not one of
the five DataFrame columns name, price, company, last_updated,
category; every column name — in particular each of price,
last_updated and name — raises no error. -/
theorem filter_data_sortkey_boundary (df : List ProductRecord) (cats : List String)
    (pr : Nat × Nat) (asc : Bool) (key : String) :
    (filter_data df cats pr key asc).isOk = true ↔ key ∈ df_columns := by
  unfold filter_data key_le
  split_ifs with h1 h2 h3 h4 h5 <;>
    simp [df_columns, Except.isOk, Except.toBool, h1, *]

/-- C9: the call of filter_data leaves the input frame unchanged — the
post-call value of df is its pre-call value — and every record of the
output is a record of the input, taken over unmodified. -/
theorem filter_data_never_mutates (df : List ProductRecord) (cats : List String)
    (pr : Nat × Nat) (key : String) (asc : Bool) :
    (filter_data_call df cats pr key asc).1 = df ∧
      ∀ out, (filter_data_call df cats pr key asc).2 = .ok out → ∀ r ∈ out, r ∈ df := by
  refine ⟨rfl, ?_⟩
  intro out hout r hr
  have hperm := filter_data_ok_perm df cats pr key asc out hout
  have : r ∈ df.filter (fun x => in_categories cats x && price_between pr x) :=
    hperm.mem_iff.mp hr
  exact (List.mem_filter.mp this).1

/-- Witness for C9 at the sample catalog: a record of the filtered
output is a record of the unchanged input. -/
theorem filter_data_never_mutates_witness : r_earbuds ∈ sample_records :=
  (filter_data_never_mutates sample_records ["Electronics"] (0, 100000) "price" true).2
    [r_earbuds, r_smartphone, r_laptop] rfl r_earbuds (by decide)

/-- C10: the search mask depends only on the name and company fields:
two record sequences that agree pointwise on name and company receive
identical masks from any query, so the same positions are selected;
price, category and last_updated never influence matching. -/
theorem search_mask_noninterference (q : String) (rs1 rs2 : List ProductRecord)
    (h : rs1.map (fun r => (r.name, r.company)) = rs2.map (fun r => (r.name, r.company))) :
    rs1.map (search_mask q) = rs2.map (search_mask q) := by
  induction rs1 generalizing rs2 with
  | nil =>
    cases rs2 with
    | nil => rfl
    | cons b u => simp at h
  | cons a t ih =>
    cases rs2 with
    | nil => simp at h
    | cons b u =>
      simp only [List.map_cons, List.cons.injEq] at h ⊢
      obtain ⟨hab, htu⟩ := h
      have hn : a.name = b.name := congrArg Prod.fst hab
      have hc : a.company = b.company := congrArg Prod.snd hab
      exact ⟨by simp [search_mask, hn, hc], ih u htu⟩

/-- Witness for C10: a Laptop record with different price, date and
category but the same name and company receives the same mask. -/
theorem search_mask_noninterference_witness :
    [r_laptop].map (search_mask "dell") =
      [(⟨"Laptop", 0, "Dell", ⟨2000, 1, 1⟩, "X"⟩ : ProductRecord)].map (search_mask "dell") :=
  search_mask_noninterference "dell" [r_laptop]
    [⟨"Laptop", 0, "Dell", ⟨2000, 1, 1⟩, "X"⟩] (by decide)

lemma char_matches_of_ne_dot (p c : Char) (h : p ≠ '.') :
    char_matches p c = (p.toLower == c.toLower) := by
  have hb : (p == '.') = false := by simp [h]
  simp [char_matches, hb]

lemma matchesAt_no_dot (p : List Char) (hp : ∀ c ∈ p, c ≠ '.') (s : List Char) :
    matchesAt p s = (p.map Char.toLower).isPrefixOf (s.map Char.toLower) := by
  induction p generalizing s with
  | nil => cases s <;> rfl
  | cons a t ih =>
    cases s with
    | nil => rfl
    | cons b u =>
      have ha : a ≠ '.' := hp a (by simp)
      have ht : ∀ c ∈ t, c ≠ '.' := fun c hc => hp c (by simp [hc])
      simp [matchesAt, List.isPrefixOf, char_matches_of_ne_dot a b ha, ih ht u]

lemma re_search_no_dot (p : List Char) (hp : ∀ c ∈ p, c ≠ '.') (s : List Char) :
    re_search p s = list_contains_sub (p.map Char.toLower) (s.map Char.toLower) := by
  induction s with
  | nil =>
    rw [show re_search p [] = matchesAt p [] from rfl, matchesAt_no_dot p hp []]
    cases p <;> simp [list_contains_sub, List.isPrefixOf, List.isEmpty]
  | cons c u ih =>
    simp [re_search, list_contains_sub, matchesAt_no_dot p hp (c :: u), ih]

lemma str_contains_ci_eq_substr (q s : String) (hq : ∀ c ∈ q.toList, c ∉ re_metachars) :
    str_contains_ci q s = substr_ci q s := by
  have hp : ∀ c ∈ q.toList, c ≠ '.' := by
    intro c hc hdot
    exact hq c hc (by rw [hdot]; decide)
  exact re_search_no_dot q.toList hp s.toList

/-- C4 counterexample: the query consisting of the single regex
metacharacter dot selects every record of the sample catalog (the
pattern is compiled as a regular expression, and dot matches any
character), whereas no name or company of the catalog contains a
literal dot, so the selection is not the case-insensitive substring
selection the claim states. -/
theorem search_not_substring_counterexample :
    search sample_records "." = sample_records ∧
      search_substring_spec sample_records "." = [] ∧
      search sample_records "." ≠ search_substring_spec sample_records "." := by
  refine ⟨rfl, rfl, ?_⟩
  decide

/-- C4 amended: str.contains is called with its default regex=True, so
the query is interpreted as a case-insensitive regular expression
searched within the name or the company; for queries containing no
regex metacharacter this coincides with case-insensitive substring
matching, and in particular the query dell matches the record with
company Dell, and the query hp returns exactly the Mouse record. -/
theorem search_matches_substring_free_queries (rs : List ProductRecord) (q : String)
    (hq : ∀ c ∈ q.toList, c ∉ re_metachars) :
    search rs q = search_substring_spec rs q ∧
      search sample_records "dell" = [r_laptop] ∧
      search sample_records "hp" = [r_mouse] := by
  refine ⟨?_, rfl, rfl⟩
  unfold search search_substring_spec
  apply List.filter_congr
  intro r _
  rw [search_mask, str_contains_ci_eq_substr q r.name hq, str_contains_ci_eq_substr q r.company hq]

/-- Witness for C4 at the metacharacter-free query dell over the
sample catalog. -/
theorem search_matches_substring_free_queries_witness :
    (search sample_records "dell" = search_substring_spec sample_records "dell") ∧
      search sample_records "dell" = [r_laptop] ∧
      search sample_records "hp" = [r_mouse] :=
  search_matches_substring_free_queries sample_records "dell" (by decide)

/-- C6: the average price is the arithmetic mean of the prices; over
the full 7-record sample catalog the mean is 204500/7, and the value
displayed with two decimals is its rounding 29214.29. -/
theorem average_price_sample_catalog :
    average_price sample_records = 204500 / 7 ∧
      average_price_display sample_records = 2921429 / 100 := by
  have hm : average_price sample_records = 204500 / 7 := by
    unfold average_price sample_records r_laptop r_smartphone r_earbuds r_refrigerator
      r_washing_machine r_keyboard r_mouse
    norm_num
  refine ⟨hm, ?_⟩
  unfold average_price_display round2 rne
  rw [hm]
  have h100 : (204500 : ℚ) / 7 * 100 = 20450000 / 7 := by norm_num
  rw [h100]
  have hf : ⌊(20450000 : ℚ) / 7⌋ = 2921428 := by
    rw [Int.floor_eq_iff]
    norm_num
  rw [hf]
  rw [if_neg (by norm_num), if_pos (by norm_num)]
  norm_num
